import Mathlib

/-!
# Verification model of the XWEntity entity runtime

Shallow embedding of `src/MIGRAT/xentity` (model.py, facade.py, errors.py,
metaclass.py).  Mutable Python objects are modelled by explicit state
passing: an operation on an entity returns the updated entity together with
an `Except` result; a raised exception is an `.error` value, and the first
component of the pair is the state the object is left in (mutations that
happened before the raise survive, as in Python).

Timestamps (`datetime.now()`) are modelled as natural numbers supplied to
each operation as the observed value of the clock at that call; theorems
about timestamp monotonicity assume the supplied clock values are
non-decreasing, which is what a real-time clock guarantees.

Entity ids (`uuid.uuid4()`) are modelled as natural numbers supplied as the
freshly drawn identifier.

The external collaborators `xData` (Field Store) and `xSchema` (Schema
Evaluator) are imported from `src.xlib`, which is not part of this
repository's sources; they are modelled from the spec at their interface
boundary (`FieldStoreOps`, and schemas as boolean predicates on the
exported plain mapping).

The entity's internal performance caches and hit counters
(`_cache`, `_schema_cache`, `_performance_stats`) are not modelled: no
verified property reads them, and `_clear_cache` only empties them.
-/

namespace XWEntity

/-- Field values held by an entity (the payloads that travel through the
Field Store and the schema evaluator). -/
inductive Val where
  | nul : Val
  | b : Bool → Val
  | n : Int → Val
  | s : String → Val
deriving DecidableEq, Repr

/-- A plain (insertion-ordered) mapping from paths to values: the shape of
Python dicts exchanged with the Field Store (`to_native`). -/
abbrev NativeMap := List (String × Val)

/-- Python `d[k] = v` on an insertion-ordered dict: replace in place when
the key exists, append otherwise. -/
def assocSet (l : NativeMap) (k : String) (v : Val) : NativeMap :=
  if (l.lookup k).isSome then
    l.map (fun p => if p.1 = k then (k, v) else p)
  else
    l ++ [(k, v)]

/-- Entity lifecycle states (`xEntityState`, model.py). -/
inductive EntityState where
  | draft
  | validated
  | committed
  | archived
deriving DecidableEq, Repr

/-- The allowed-transition table built in `aEntity.__init__`
(`_state_transitions`, model.py lines 128-133). -/
def stateTransitions : EntityState → List EntityState
  | .draft => [.validated, .archived]
  | .validated => [.committed, .draft, .archived]
  | .committed => [.archived]
  | .archived => [.draft]

/-- `xEntityMetadata` (model.py): identity, lifecycle state, version
counter, timestamps, tags and the free-form metadata mapping. -/
structure XEntityMetadata where
  id : Nat
  etype : String
  state : EntityState
  version : Nat
  created_at : Nat
  updated_at : Nat
  tags : List String
  metadata : NativeMap
deriving Repr

/-- `xEntityMetadata.__init__`: fresh id, `DRAFT`, version 1, both
timestamps observed at construction (`created_at` first). -/
def XEntityMetadata.init (freshId : Nat) (etype : String) (tCreated tUpdated : Nat) :
    XEntityMetadata :=
  { id := freshId
    etype := etype
    state := .draft
    version := 1
    created_at := tCreated
    updated_at := tUpdated
    tags := []
    metadata := [] }

/-- `xEntityMetadata.update_version`: bump the version by one and refresh
`updated_at` to the clock observed at the call. -/
def XEntityMetadata.update_version (m : XEntityMetadata) (now : Nat) : XEntityMetadata :=
  { m with version := m.version + 1, updated_at := now }

/-- The dictionary produced by `xEntityMetadata.to_dict` and consumed by
`from_dict`.  Every field is optional because `from_dict` supplies a
default for each absent key; `to_dict` populates all of them. -/
structure MetaDict where
  id : Option Nat
  etype : Option String
  state : Option EntityState
  version : Option Nat
  created_at : Option Nat
  updated_at : Option Nat
  tags : Option (List String)
  metadata : Option NativeMap
deriving Repr

/-- `xEntityMetadata.to_dict` (model.py lines 58-69). -/
def XEntityMetadata.to_dict (m : XEntityMetadata) : MetaDict :=
  { id := some m.id
    etype := some m.etype
    state := some m.state
    version := some m.version
    created_at := some m.created_at
    updated_at := some m.updated_at
    tags := some m.tags
    metadata := some m.metadata }

/-- `xEntityMetadata.from_dict` (model.py lines 71-80): every field is
overwritten from the dictionary, with a fresh uuid / the current clock /
fixed constants as defaults for absent keys. -/
def XEntityMetadata.from_dict (d : MetaDict) (freshId now : Nat) : XEntityMetadata :=
  { id := d.id.getD freshId
    etype := d.etype.getD "entity"
    state := d.state.getD .draft
    version := d.version.getD 1
    created_at := d.created_at.getD now
    updated_at := d.updated_at.getD now
    tags := d.tags.getD []
    metadata := d.metadata.getD [] }

/-- The error taxonomy of errors.py, with the structured details each
constructor carries. -/
inductive EntityErr where
  | validationError (message : String) (field : Option String) (constraint : Option String)
  | stateError (current : EntityState) (target : EntityState) (reason : Option String)
  | actionError (action : String) (reason : String)
  | storeErr (detail : String)
deriving DecidableEq, Repr

/-- Modelled from the spec: the external Field Store contract (spec section 6;
`xData` lives in `src.xlib.xdata`, outside this repository's sources).
`set`/`del` may fail (the core propagates such failures, spec section 7),
so they return `Except`. -/
structure FieldStoreOps (σ : Type) where
  get : σ → String → Val → Val
  set : σ → String → Val → Except String σ
  del : σ → String → Except String σ
  to_native : σ → NativeMap
  of_native : NativeMap → σ

/-- Modelled from the spec: the canonical Field Store instance over a flat
plain mapping, on which `set` always succeeds and export/import are the
identity. -/
def XDataStore : FieldStoreOps NativeMap :=
  { get := fun d p dflt => (d.lookup p).getD dflt
    set := fun d p v => .ok (assocSet d p v)
    del := fun d p => .ok (d.filter (fun q => q.1 ≠ p))
    to_native := id
    of_native := id }

/-- `aEntity` (model.py): metadata, optional schema, the Field Store
backing (`σ`), and the registered actions.  Action bodies are kept
abstract (`β`); `_execute_action` receives the interpretation that runs a
body against the entity. -/
structure AEntity (σ β : Type) where
  metadata : XEntityMetadata
  schema : Option (NativeMap → Bool)
  data : σ
  actions : List (String × β)

/-- `aEntity.__init__` composed with `_init_data`: fresh metadata in state
`DRAFT`, the supplied schema, data built from the supplied mapping (empty
when absent), and no registered actions. -/
def AEntity.init {σ β : Type} (ops : FieldStoreOps σ) (schema : Option (NativeMap → Bool))
    (data : Option NativeMap) (entity_type : Option String)
    (freshId tCreated tUpdated : Nat) : AEntity σ β :=
  { metadata := XEntityMetadata.init freshId (entity_type.getD "entity") tCreated tUpdated
    schema := schema
    data := ops.of_native (data.getD [])
    actions := [] }

/-- `aEntity._get` (model.py): read through the Field Store with a default.
(The access counter it also bumps is not modelled.) -/
def AEntity._get {σ β : Type} (ops : FieldStoreOps σ) (e : AEntity σ β)
    (path : String) (dflt : Val) : Val :=
  ops.get e.data path dflt

/-- `aEntity._set` (model.py lines 199-203): write through the Field Store,
then bump version and refresh `updated_at`.  A Field Store failure
propagates and leaves the entity untouched. -/
def AEntity._set {σ β : Type} (ops : FieldStoreOps σ) (e : AEntity σ β)
    (now : Nat) (path : String) (v : Val) : AEntity σ β × Except EntityErr Unit :=
  match ops.set e.data path v with
  | .error msg => (e, .error (.storeErr msg))
  | .ok d => ({ e with data := d, metadata := e.metadata.update_version now }, .ok ())

/-- `aEntity._delete` (model.py lines 205-209): delete through the Field
Store, then bump version and refresh `updated_at`. -/
def AEntity._delete {σ β : Type} (ops : FieldStoreOps σ) (e : AEntity σ β)
    (now : Nat) (path : String) : AEntity σ β × Except EntityErr Unit :=
  match ops.del e.data path with
  | .error msg => (e, .error (.storeErr msg))
  | .ok d => ({ e with data := d, metadata := e.metadata.update_version now }, .ok ())

/-- `aEntity._update` (model.py lines 211-214): apply each pair via `_set`
in iteration order.  An exception from a `_set` propagates at once; the
entity keeps the pairs already applied.  (Python draws a fresh clock per
`_set`; a single observed clock value stands for the whole loop, since
only clock monotonicity is ever used.) -/
def AEntity._update {σ β : Type} (ops : FieldStoreOps σ) (e : AEntity σ β)
    (now : Nat) : NativeMap → AEntity σ β × Except EntityErr Unit
  | [] => (e, .ok ())
  | (p, v) :: rest =>
    match AEntity._set ops e now p v with
    | (e', .ok _) => AEntity._update ops e' now rest
    | (e', .error err) => (e', .error err)

/-- `aEntity._validate` (model.py lines 216-223): no schema means no
validation; otherwise delegate to the schema evaluator on the exported
plain mapping.  (The validation counter it also bumps is not modelled.) -/
def AEntity._validate {σ β : Type} (ops : FieldStoreOps σ) (e : AEntity σ β) : Bool :=
  match e.schema with
  | none => true
  | some sch => sch (ops.to_native e.data)

/-- `aEntity._can_transition_to` (model.py lines 340-344). -/
def AEntity._can_transition_to {σ β : Type} (e : AEntity σ β) (target : EntityState) : Bool :=
  decide (target ∈ stateTransitions e.metadata.state)

/-- `aEntity._transition_to` (model.py lines 319-338): reject targets
outside the allowed set; gate `VALIDATED` behind `_validate`; on success
install the target state, bump version, refresh `updated_at`. -/
def AEntity._transition_to {σ β : Type} (ops : FieldStoreOps σ) (e : AEntity σ β)
    (now : Nat) (target : EntityState) : AEntity σ β × Except EntityErr Unit :=
  if ¬ e._can_transition_to target then
    (e, .error (.stateError e.metadata.state target (some "Transition not allowed")))
  else if target = .validated ∧ ¬ AEntity._validate ops e then
    (e, .error (.stateError e.metadata.state target (some "Validation failed")))
  else
    ({ e with metadata :=
        XEntityMetadata.update_version { e.metadata with state := target } now },
      .ok ())

/-- `aEntity._execute_action` (model.py lines 261-277): unknown names fail
with `xEntityActionError(name, "Action not registered")` before any body
runs; otherwise the stored body is executed against the entity via the
interpretation `interp`. -/
def AEntity._execute_action {σ β : Type} (interp : β → AEntity σ β → AEntity σ β × Val)
    (e : AEntity σ β) (name : String) : AEntity σ β × Except EntityErr Val :=
  match e.actions.lookup name with
  | none => (e, .error (.actionError name "Action not registered"))
  | some body =>
    let r := interp body e
    (r.1, .ok r.2)

/-- The dictionary produced by `aEntity._to_dict` (model.py lines 225-244):
always the metadata dictionary and the exported data mapping; a schema
descriptor when a schema is attached; the action names when actions are
registered.  (`_from_dict` reads only the first two keys.) -/
structure Snapshot where
  metaDict : Option MetaDict
  dataMap : Option NativeMap
  hasSchemaBlock : Bool
  actionNames : Option (List String)
deriving Repr

/-- `aEntity._to_dict`. -/
def AEntity._to_dict {σ β : Type} (ops : FieldStoreOps σ) (e : AEntity σ β) : Snapshot :=
  { metaDict := some e.metadata.to_dict
    dataMap := some (ops.to_native e.data)
    hasSchemaBlock := e.schema.isSome
    actionNames := if e.actions.isEmpty then none else some (e.actions.map (·.1)) }

/-- `aEntity._from_dict` (model.py lines 246-255): load the metadata
dictionary when present, replace the data when present; schema and
actions are not reconstructed. -/
def AEntity._from_dict {σ β : Type} (ops : FieldStoreOps σ) (e : AEntity σ β)
    (snap : Snapshot) (freshId now : Nat) : AEntity σ β :=
  { e with
    metadata :=
      match snap.metaDict with
      | some md => XEntityMetadata.from_dict md freshId now
      | none => e.metadata
    data :=
      match snap.dataMap with
      | some d => ops.of_native d
      | none => e.data }

/-- `aEntityFactory.from_dict` (model.py lines 463-468): a fresh entity
with the supplied schema, then `_from_dict`. -/
def aEntityFactory.from_dict {σ β : Type} (ops : FieldStoreOps σ)
    (snap : Snapshot) (schema : Option (NativeMap → Bool))
    (freshId tCreated tUpdated : Nat) : AEntity σ β :=
  AEntity._from_dict ops (AEntity.init ops schema none none freshId tCreated tUpdated)
    snap freshId tUpdated

/-! ## Public facade (facade.py) -/

/-- `xEntity.validate` (facade.py lines 283-286). -/
def xEntity.validate {σ β : Type} (ops : FieldStoreOps σ) (e : AEntity σ β) : Bool :=
  AEntity._validate ops e

/-- `xEntity.validate_or_raise` (facade.py lines 288-291): raise
`xEntityValidationError("Entity validation failed")` when `validate` is
false. -/
def xEntity.validate_or_raise {σ β : Type} (ops : FieldStoreOps σ) (e : AEntity σ β) :
    Except EntityErr Unit :=
  if xEntity.validate ops e then .ok ()
  else .error (.validationError "Entity validation failed" none none)

/-- `xEntity.set` (facade.py lines 261-265), a thin wrapper over
`aEntity._set`. -/
def xEntity.set {σ β : Type} (ops : FieldStoreOps σ) (e : AEntity σ β)
    (now : Nat) (path : String) (v : Val) : AEntity σ β × Except EntityErr Unit :=
  AEntity._set ops e now path v

/-- `xEntity.update` (facade.py lines 273-277), a thin wrapper over
`aEntity._update`. -/
def xEntity.update {σ β : Type} (ops : FieldStoreOps σ) (e : AEntity σ β)
    (now : Nat) (pairs : NativeMap) : AEntity σ β × Except EntityErr Unit :=
  AEntity._update ops e now pairs

/-- `xEntity.to_dict` (facade.py lines 348-351). -/
def xEntity.to_dict {σ β : Type} (ops : FieldStoreOps σ) (e : AEntity σ β) : Snapshot :=
  AEntity._to_dict ops e

/-- `xEntity.from_dict` (facade.py lines 168-172), delegating to
`aEntityFactory.from_dict`. -/
def xEntity.from_dict {σ β : Type} (ops : FieldStoreOps σ) (snap : Snapshot)
    (schema : Option (NativeMap → Bool)) (freshId tCreated tUpdated : Nat) : AEntity σ β :=
  aEntityFactory.from_dict ops snap schema freshId tCreated tUpdated

/-- `xEntity.copy` (facade.py lines 366-379): export `to_dict`, rebuild via
`from_dict` with the same schema, then re-copy the tag list and metadata
mapping from the source. -/
def xEntity.copy {σ β : Type} (ops : FieldStoreOps σ) (e : AEntity σ β)
    (freshId tCreated tUpdated : Nat) : AEntity σ β :=
  let snap := xEntity.to_dict ops e
  let e2 : AEntity σ β := xEntity.from_dict ops snap e.schema freshId tCreated tUpdated
  { e2 with metadata :=
      { e2.metadata with tags := e.metadata.tags, metadata := e.metadata.metadata } }

/-- `xEntity.execute_action` (facade.py lines 331-334). -/
def xEntity.execute_action {σ β : Type} (interp : β → AEntity σ β → AEntity σ β × Val)
    (e : AEntity σ β) (name : String) : AEntity σ β × Except EntityErr Val :=
  AEntity._execute_action interp e name

/-! ## Entity cache (facade.py, `xEntityCache`)

The `OrderedDict` is modelled as an insertion-ordered association list with
the most recently used entry at the end; `move_to_end` moves a present key
to the end, `popitem(last=False)` drops the head. -/

/-- `OrderedDict.move_to_end(key)` for a key known to be present (both call
sites in facade.py guarantee presence); absent keys are left alone. -/
def odMoveToEnd {α : Type} (l : List (String × α)) (k : String) : List (String × α) :=
  match l.lookup k with
  | some v => (l.filter (fun p => p.1 ≠ k)) ++ [(k, v)]
  | none => l

/-- `OrderedDict` assignment `d[k] = v`: update in place when the key
exists (position kept), append otherwise. -/
def odAssign {α : Type} (l : List (String × α)) (k : String) (v : α) : List (String × α) :=
  if (l.lookup k).isSome then
    l.map (fun p => if p.1 = k then (k, v) else p)
  else
    l ++ [(k, v)]

/-- `xEntityCache` (facade.py lines 56-126): bounded LRU cache with hit and
miss counters.  (The optional lock only serialises calls; it has no effect
on the sequential semantics modelled here.) -/
structure XEntityCache (α : Type) where
  cache : List (String × α)
  max_size : Nat
  hit_count : Nat
  miss_count : Nat
deriving Repr

/-- `xEntityCache.__init__`. -/
def XEntityCache.init (α : Type) (max_size : Nat) : XEntityCache α :=
  { cache := [], max_size := max_size, hit_count := 0, miss_count := 0 }

/-- `xEntityCache._get_impl` (facade.py lines 76-86): on a present key,
count a hit, refresh recency, return the value; otherwise count a miss and
return `none`. -/
def XEntityCache.get {α : Type} (c : XEntityCache α) (k : String) :
    XEntityCache α × Option α :=
  match c.cache.lookup k with
  | some v =>
    ({ c with hit_count := c.hit_count + 1, cache := odMoveToEnd c.cache k }, some v)
  | none =>
    ({ c with miss_count := c.miss_count + 1 }, none)

/-- `xEntityCache._put_impl` (facade.py lines 96-102): assign, move to the
recent end, and when the size exceeds the bound evict the least recently
used entry (the head). -/
def XEntityCache.put {α : Type} (c : XEntityCache α) (k : String) (v : α) :
    XEntityCache α :=
  if (odMoveToEnd (odAssign c.cache k v) k).length > c.max_size then
    { c with cache := (odMoveToEnd (odAssign c.cache k v) k).drop 1 }
  else
    { c with cache := odMoveToEnd (odAssign c.cache k v) k }

/-! ## Synthesized accessors (metaclass.py)

A declared field (`PropertyInfo`) carries a name, a default, and an
optional per-field constraint evaluator (the xSchema attached to the
field), modelled as a boolean predicate on values since xSchema is outside
this repository's sources. -/

/-- A declared field as scanned by the metaclass. -/
structure PropertyInfo where
  name : String
  dflt : Val
  schema : Option (Val → Bool)

/-- The getter created by
`PerformanceModeMetaclass._create_direct_property` (metaclass.py lines
518-519): read the private slot, falling back to the field default.  The
instance's slots are modelled as a mapping from private names to values. -/
def directGetter (prop : PropertyInfo) (slots : NativeMap) : Val :=
  (slots.lookup ("_" ++ prop.name)).getD prop.dflt

/-- The setter created by
`PerformanceModeMetaclass._create_direct_property` (metaclass.py lines
521-527): the schema-validation step is commented out in the source
("temporarily disabled due to xSchema bug"), so the setter stores the
value unconditionally and never raises, regardless of the field's
constraint evaluator or the validation switch. -/
def directSetter (prop : PropertyInfo) (_enableValidation : Bool) (slots : NativeMap)
    (value : Val) : Except EntityErr NativeMap :=
  .ok (assocSet slots ("_" ++ prop.name) value)

/-- The setter created by
`MemoryModeMetaclass._create_delegated_property` (metaclass.py lines
561-566): when a field schema is present and validation is enabled, a
rejected value raises (`ValueError`, modelled as a validation error);
otherwise write through the Field Store. -/
def delegatedSetter {σ : Type} (ops : FieldStoreOps σ) (prop : PropertyInfo)
    (enableValidation : Bool) (d : σ) (value : Val) : Except EntityErr σ :=
  match prop.schema with
  | some sch =>
    if enableValidation ∧ ¬ sch value then
      .error (.validationError ("Validation failed for " ++ prop.name) (some prop.name) none)
    else
      match ops.set d prop.name value with
      | .error msg => .error (.storeErr msg)
      | .ok d2 => .ok d2
  | none =>
    match ops.set d prop.name value with
    | .error msg => .error (.storeErr msg)
    | .ok d2 => .ok d2

/-! ## Derived execution helpers used by the verified properties -/

/-- Run a sequence of `(target, clock)` transition requests through
`aEntity._transition_to`, stopping at the first rejected one; the flag
records whether every request was accepted. -/
def runTransitions {σ β : Type} (ops : FieldStoreOps σ) :
    AEntity σ β → List (EntityState × Nat) → AEntity σ β × Bool
  | e, [] => (e, true)
  | e, (t, n) :: rest =>
    match AEntity._transition_to ops e n t with
    | (e', .ok _) => runTransitions ops e' rest
    | (e', .error _) => (e', false)

/-- The supplied clock observations are non-decreasing, starting no earlier
than the given instant (what a real-time clock guarantees across calls). -/
def clockAdmissible : Nat → List (EntityState × Nat) → Prop
  | _, [] => True
  | t0, (_, n) :: rest => t0 ≤ n ∧ clockAdmissible n rest

/-- All-or-nothing sequential application of `aEntity._set`: `some` exactly
when every pair applies successfully, returning the entity with all pairs
applied in order. -/
def applyOk {σ β : Type} (ops : FieldStoreOps σ) :
    AEntity σ β → Nat → NativeMap → Option (AEntity σ β)
  | e, _, [] => some e
  | e, now, (p, v) :: rest =>
    match AEntity._set ops e now p v with
    | (e', .ok _) => applyOk ops e' now rest
    | (_, .error _) => none

/-- A freshly constructed schema-free entity over the flat store, used as
the concrete instance in the closed witnesses. -/
def sampleEntity : AEntity NativeMap Unit :=
  AEntity.init XDataStore none none none 7 0 0

/-- A declared field whose constraint evaluator rejects every value, used
to exhibit the disabled validation in the direct-strategy setter. -/
def rejectAllProp : PropertyInfo :=
  { name := "age", dflt := .nul, schema := some (fun _ => false) }

/-! ## Verified properties -/

/-- C1: if the target state is not in the allowed set for the entity's
current state under the transition table, `_transition_to` raises a
`StateError` carrying the current and target states, and the entity
(state, version, `updated_at` included) is unchanged. -/
theorem transition_rejected_raises_and_preserves {σ β : Type} (ops : FieldStoreOps σ)
    (e : AEntity σ β) (now : Nat) (target : EntityState)
    (h : target ∉ stateTransitions e.metadata.state) :
    AEntity._transition_to ops e now target
      = (e, .error (.stateError e.metadata.state target (some "Transition not allowed"))) := by
  have hc : e._can_transition_to target = false := by
    unfold AEntity._can_transition_to
    exact decide_eq_false h
  unfold AEntity._transition_to
  simp [hc]

/-- C1 witness: a fresh `DRAFT` entity may not jump to `COMMITTED`. -/
theorem transition_rejected_witness :
    AEntity._transition_to XDataStore sampleEntity 5 .committed
      = (sampleEntity,
          .error (.stateError .draft .committed (some "Transition not allowed"))) :=
  transition_rejected_raises_and_preserves XDataStore sampleEntity 5 .committed (by decide)

/-- C2: when the current state allows the transition to `VALIDATED`,
`_transition_to VALIDATED` succeeds exactly when `_validate` (the schema
pass over the entity's field data) succeeds; on validation failure a
`StateError` with reason "Validation failed" is raised and the entity is
unchanged. -/
theorem to_validated_succeeds_iff_validation {σ β : Type} (ops : FieldStoreOps σ)
    (e : AEntity σ β) (now : Nat)
    (h : e._can_transition_to .validated = true) :
    ((AEntity._transition_to ops e now .validated).2 = .ok ()
        ↔ AEntity._validate ops e = true) ∧
    (AEntity._validate ops e = false →
      AEntity._transition_to ops e now .validated
        = (e, .error (.stateError e.metadata.state .validated (some "Validation failed")))) := by
  unfold AEntity._transition_to
  cases hv : AEntity._validate ops e <;> simp [h, hv]

/-- C2 witness: the sample draft schema-free entity validates and the
transition to `VALIDATED` succeeds. -/
theorem to_validated_witness :
    AEntity._can_transition_to sampleEntity .validated = true ∧
    (AEntity._transition_to XDataStore sampleEntity 5 .validated).2 = .ok () := by
  have h : AEntity._can_transition_to sampleEntity .validated = true := by decide
  exact ⟨h, ((to_validated_succeeds_iff_validation XDataStore sampleEntity 5 h).1).mpr rfl⟩

/-- C9: executing an action name that is not registered raises
`xEntityActionError(name, "Action not registered")`, for every possible
interpretation of action bodies (so no body runs), leaving the entity
unchanged. -/
theorem execute_unregistered_action_fails {σ β : Type}
    (interp : β → AEntity σ β → AEntity σ β × Val) (e : AEntity σ β) (name : String)
    (h : e.actions.lookup name = none) :
    AEntity._execute_action interp e name
      = (e, .error (.actionError name "Action not registered")) := by
  unfold AEntity._execute_action
  rw [h]

/-- C9 witness: the sample entity has no registered actions, so executing
"missing-action" fails with the action error. -/
theorem execute_unregistered_action_witness :
    AEntity._execute_action (fun _ e => (e, .nul)) sampleEntity "missing-action"
      = (sampleEntity, .error (.actionError "missing-action" "Action not registered")) :=
  execute_unregistered_action_fails (fun _ e => (e, .nul)) sampleEntity "missing-action" rfl

/-- C10: an entity with no schema attached always validates (`validate`
returns true) and `validate_or_raise` never raises, regardless of the
field data. -/
theorem validate_without_schema_always_true {σ β : Type} (ops : FieldStoreOps σ)
    (e : AEntity σ β) (h : e.schema = none) :
    xEntity.validate ops e = true ∧ xEntity.validate_or_raise ops e = .ok () := by
  have hv : xEntity.validate ops e = true := by
    unfold xEntity.validate AEntity._validate
    rw [h]
  refine ⟨hv, ?_⟩
  unfold xEntity.validate_or_raise
  rw [hv]
  rfl

/-- C10 witness: the sample entity carries no schema and validates. -/
theorem validate_without_schema_witness :
    xEntity.validate XDataStore sampleEntity = true ∧
    xEntity.validate_or_raise XDataStore sampleEntity = .ok () :=
  validate_without_schema_always_true XDataStore sampleEntity rfl

/-- C4 (code evaluation): `copy()` rebuilds the entity from its own
snapshot, and `xEntityMetadata.from_dict` restores the snapshot's `id`,
`state` and `version`; so the copy of a validated, version-2 entity with
id 7 again has id 7 (the freshly drawn id 99 is discarded), version 2 and
state `VALIDATED` — not a new id, version 1 and `DRAFT` as `copy`'s own
docstring ("with new ID", "Copy metadata except ID") promises. -/
theorem copy_keeps_source_id_version_state :
    (AEntity._transition_to XDataStore sampleEntity 1 .validated).1.metadata.version = 2 ∧
    (AEntity._transition_to XDataStore sampleEntity 1 .validated).1.metadata.state
      = .validated ∧
    (xEntity.copy XDataStore
        (AEntity._transition_to XDataStore sampleEntity 1 .validated).1 99 2 2).metadata.id
      = 7 ∧
    (xEntity.copy XDataStore
        (AEntity._transition_to XDataStore sampleEntity 1 .validated).1 99 2 2).metadata.version
      = 2 ∧
    (xEntity.copy XDataStore
        (AEntity._transition_to XDataStore sampleEntity 1 .validated).1 99 2 2).metadata.state
      = .validated := by
  refine ⟨rfl, rfl, rfl, rfl, rfl⟩

/-- C5 (code evaluation): the direct-strategy setter synthesized by the
performance-mode metaclass stores the value unconditionally — its
schema-validation step is commented out in the source — so even with
validation enabled and a constraint evaluator that rejects every value,
`set` stores the rejected value and raises nothing, and the getter then
returns it. -/
theorem direct_setter_stores_rejected_value :
    directSetter rejectAllProp true [] (.n 200) = .ok [("_age", .n 200)] ∧
    directGetter rejectAllProp [("_age", .n 200)] = .n 200 := by
  refine ⟨rfl, rfl⟩

/-- C7: rebuilding an entity from its exported snapshot
(`from_dict(to_dict(e))`) reproduces the field data and the metadata
`state`, `version`, `tags` and `metadata` mapping of the source. -/
theorem snapshot_round_trip {β : Type} (e : AEntity NativeMap β)
    (freshId tCreated tUpdated : Nat) :
    (xEntity.from_dict (β := β) XDataStore (xEntity.to_dict XDataStore e) none
        freshId tCreated tUpdated).data = e.data ∧
    (xEntity.from_dict (β := β) XDataStore (xEntity.to_dict XDataStore e) none
        freshId tCreated tUpdated).metadata.state = e.metadata.state ∧
    (xEntity.from_dict (β := β) XDataStore (xEntity.to_dict XDataStore e) none
        freshId tCreated tUpdated).metadata.version = e.metadata.version ∧
    (xEntity.from_dict (β := β) XDataStore (xEntity.to_dict XDataStore e) none
        freshId tCreated tUpdated).metadata.tags = e.metadata.tags ∧
    (xEntity.from_dict (β := β) XDataStore (xEntity.to_dict XDataStore e) none
        freshId tCreated tUpdated).metadata.metadata = e.metadata.metadata := by
  refine ⟨rfl, rfl, rfl, rfl, rfl⟩

/-! ### Association-list lemmas for the ordered-dict cache model -/

theorem lookup_append_left_none {α : Type} (l m : List (String × α)) (k : String)
    (h : l.lookup k = none) : (l ++ m).lookup k = m.lookup k := by
  induction l with
  | nil => simp
  | cons p t ih =>
    obtain ⟨a, b⟩ := p
    by_cases hk : k = a
    · subst hk
      simp [List.lookup_cons_self] at h
    · have hk' : (k == a) = false := beq_false_of_ne hk
      simp only [List.cons_append, List.lookup_cons, hk'] at h ⊢
      exact ih h

theorem lookup_eq_none_of_all_ne {α : Type} (l : List (String × α)) (k : String)
    (h : ∀ p ∈ l, p.1 ≠ k) : l.lookup k = none := by
  induction l with
  | nil => simp
  | cons p t ih =>
    obtain ⟨a, b⟩ := p
    have ha : a ≠ k := h (a, b) (List.mem_cons_self _ _)
    have hk' : (k == a) = false := beq_false_of_ne (Ne.symm ha)
    simp only [List.lookup_cons, hk']
    exact ih (fun q hq => h q (List.mem_cons_of_mem _ hq))

theorem lookup_filter_ne {α : Type} (l : List (String × α)) (k : String) :
    (l.filter (fun p => p.1 ≠ k)).lookup k = none := by
  refine lookup_eq_none_of_all_ne _ _ ?_
  intro q hq
  have hq2 := List.of_mem_filter hq
  exact of_decide_eq_true hq2

theorem lookup_map_assign {α : Type} (l : List (String × α)) (k : String) (v : α)
    (h : (l.lookup k).isSome) :
    (l.map (fun p => if p.1 = k then (k, v) else p)).lookup k = some v := by
  induction l with
  | nil => simp at h
  | cons p t ih =>
    obtain ⟨a, b⟩ := p
    by_cases hk : a = k
    · subst hk
      simp [List.lookup_cons_self]
    · have hk' : (k == a) = false := beq_false_of_ne (Ne.symm hk)
      simp only [List.map_cons, if_neg hk, List.lookup_cons, hk'] at h ⊢
      exact ih h

theorem lookup_odAssign {α : Type} (l : List (String × α)) (k : String) (v : α) :
    (odAssign l k v).lookup k = some v := by
  unfold odAssign
  cases hl : l.lookup k with
  | none =>
    rw [if_neg (by simp [hl])]
    rw [lookup_append_left_none l _ k hl, List.lookup_cons_self]
  | some w =>
    rw [if_pos (by simp [hl])]
    exact lookup_map_assign l k v (by simp [hl])

theorem odMoveToEnd_of_lookup {α : Type} (l : List (String × α)) (k : String) (v : α)
    (h : l.lookup k = some v) :
    odMoveToEnd l k = (l.filter (fun p => p.1 ≠ k)) ++ [(k, v)] := by
  unfold odMoveToEnd
  rw [h]

/-- After `put c k v`, the key `k` is present with value `v` whenever the
bound is positive (a bound of 0 evicts the entry just inserted). -/
theorem lookup_put_of_pos {α : Type} (c : XEntityCache α) (k : String) (v : α)
    (hpos : 1 ≤ c.max_size) :
    (XEntityCache.put c k v).cache.lookup k = some v := by
  have hl2 : (odAssign c.cache k v).lookup k = some v := lookup_odAssign _ _ _
  have hmove := odMoveToEnd_of_lookup (odAssign c.cache k v) k v hl2
  have hall : ∀ q ∈ (odAssign c.cache k v).filter (fun p => p.1 ≠ k), q.1 ≠ k := by
    intro q hq
    have hq2 := List.of_mem_filter hq
    exact of_decide_eq_true hq2
  unfold XEntityCache.put
  rw [hmove]
  by_cases hlen :
      ((odAssign c.cache k v).filter (fun p => p.1 ≠ k) ++ [(k, v)]).length > c.max_size
  · rw [if_pos hlen]
    cases hA : (odAssign c.cache k v).filter (fun p => p.1 ≠ k) with
    | nil =>
      exfalso
      rw [hA] at hlen
      simp at hlen
      omega
    | cons a rest =>
      rw [hA] at hall
      have hrest : rest.lookup k = none :=
        lookup_eq_none_of_all_ne _ _ (fun q hq => hall q (List.mem_cons_of_mem _ hq))
      simp only [List.cons_append, List.drop_succ_cons, List.drop_zero]
      rw [lookup_append_left_none _ _ _ hrest, List.lookup_cons_self]
  · rw [if_neg hlen]
    rw [lookup_append_left_none _ _ _ (lookup_filter_ne _ _), List.lookup_cons_self]

/-- `put` never touches the hit counter. -/
theorem put_hit_count {α : Type} (c : XEntityCache α) (k : String) (v : α) :
    (XEntityCache.put c k v).hit_count = c.hit_count := by
  unfold XEntityCache.put
  by_cases h : (odMoveToEnd (odAssign c.cache k v) k).length > c.max_size
  · rw [if_pos h]
  · rw [if_neg h]

/-- C6 counterexample: the claim quantifies over every cache, but the code
run with a bound of 0 (`xEntityCache(0)`) evicts the entry just inserted,
so `put("a", 1)` followed by `get("a")` returns nothing and records a
miss, not a hit. -/
theorem cache_bound_zero_put_get_misses :
    (XEntityCache.get (XEntityCache.put (XEntityCache.init Nat 0) "a" 1) "a").2 = none ∧
    (XEntityCache.get (XEntityCache.put (XEntityCache.init Nat 0) "a" 1) "a").1.hit_count
      = 0 ∧
    (XEntityCache.get (XEntityCache.put (XEntityCache.init Nat 0) "a" 1) "a").1.miss_count
      = 1 := by
  refine ⟨rfl, rfl, rfl⟩

/-- C6 (amended): for every cache whose bound is positive, `put(k, v)`
immediately followed by `get(k)` returns `v` and records a hit; and with a
bound of 2, inserting 3 distinct keys with no intervening accesses evicts
exactly the first-inserted key (deterministic LRU eviction). -/
theorem cache_put_get_hit_and_lru_eviction {α : Type} (c : XEntityCache α)
    (k : String) (v : α) (hpos : 1 ≤ c.max_size) :
    (XEntityCache.get (XEntityCache.put c k v) k).2 = some v ∧
    (XEntityCache.get (XEntityCache.put c k v) k).1.hit_count = c.hit_count + 1 ∧
    (XEntityCache.put (XEntityCache.put (XEntityCache.put
        (XEntityCache.init Nat 2) "a" 1) "b" 2) "c" 3).cache
      = [("b", 2), ("c", 3)] := by
  have hk := lookup_put_of_pos c k v hpos
  unfold XEntityCache.get
  rw [hk]
  exact ⟨rfl, by simpa using put_hit_count c k v, rfl⟩

/-- C6 witness: a concrete bound-2 cache serves the freshly inserted value
and counts the hit. -/
theorem cache_put_get_witness :
    1 ≤ (XEntityCache.init Nat 2).max_size ∧
    (XEntityCache.get (XEntityCache.put (XEntityCache.init Nat 2) "k" 5) "k").2 = some 5 ∧
    (XEntityCache.get (XEntityCache.put (XEntityCache.init Nat 2) "k" 5) "k").1.hit_count
      = 1 :=
  ⟨by decide,
    (cache_put_get_hit_and_lru_eviction (XEntityCache.init Nat 2) "k" 5 (by decide)).1,
    (cache_put_get_hit_and_lru_eviction (XEntityCache.init Nat 2) "k" 5 (by decide)).2.1⟩

/-! ### Rewrite lemmas for the entity mutation operations -/

theorem set_eq_of_store_ok {σ β : Type} (ops : FieldStoreOps σ) (e : AEntity σ β)
    (now : Nat) (p : String) (v : Val) (d : σ) (hs : ops.set e.data p v = .ok d) :
    AEntity._set ops e now p v
      = ({ e with data := d, metadata := e.metadata.update_version now }, .ok ()) := by
  unfold AEntity._set
  rw [hs]

theorem set_eq_of_store_error {σ β : Type} (ops : FieldStoreOps σ) (e : AEntity σ β)
    (now : Nat) (p : String) (v : Val) (msg : String)
    (hs : ops.set e.data p v = .error msg) :
    AEntity._set ops e now p v = (e, .error (.storeErr msg)) := by
  unfold AEntity._set
  rw [hs]

theorem set_ok_meta {σ β : Type} (ops : FieldStoreOps σ) (e : AEntity σ β)
    (now : Nat) (p : String) (v : Val)
    (h : (AEntity._set ops e now p v).2 = .ok ()) :
    (AEntity._set ops e now p v).1.metadata = e.metadata.update_version now := by
  cases hs : ops.set e.data p v with
  | error msg => rw [set_eq_of_store_error ops e now p v msg hs] at h; simp at h
  | ok d => rw [set_eq_of_store_ok ops e now p v d hs]

theorem set_error_unchanged {σ β : Type} (ops : FieldStoreOps σ) (e : AEntity σ β)
    (now : Nat) (p : String) (v : Val) (err : EntityErr)
    (h : (AEntity._set ops e now p v).2 = .error err) :
    (AEntity._set ops e now p v).1 = e := by
  cases hs : ops.set e.data p v with
  | error msg => rw [set_eq_of_store_error ops e now p v msg hs]
  | ok d => rw [set_eq_of_store_ok ops e now p v d hs] at h; simp at h

theorem delete_eq_of_store_ok {σ β : Type} (ops : FieldStoreOps σ) (e : AEntity σ β)
    (now : Nat) (p : String) (d : σ) (hs : ops.del e.data p = .ok d) :
    AEntity._delete ops e now p
      = ({ e with data := d, metadata := e.metadata.update_version now }, .ok ()) := by
  unfold AEntity._delete
  rw [hs]

theorem delete_eq_of_store_error {σ β : Type} (ops : FieldStoreOps σ) (e : AEntity σ β)
    (now : Nat) (p : String) (msg : String) (hs : ops.del e.data p = .error msg) :
    AEntity._delete ops e now p = (e, .error (.storeErr msg)) := by
  unfold AEntity._delete
  rw [hs]

theorem delete_ok_meta {σ β : Type} (ops : FieldStoreOps σ) (e : AEntity σ β)
    (now : Nat) (p : String)
    (h : (AEntity._delete ops e now p).2 = .ok ()) :
    (AEntity._delete ops e now p).1.metadata = e.metadata.update_version now := by
  cases hs : ops.del e.data p with
  | error msg => rw [delete_eq_of_store_error ops e now p msg hs] at h; simp at h
  | ok d => rw [delete_eq_of_store_ok ops e now p d hs]

theorem delete_error_unchanged {σ β : Type} (ops : FieldStoreOps σ) (e : AEntity σ β)
    (now : Nat) (p : String) (err : EntityErr)
    (h : (AEntity._delete ops e now p).2 = .error err) :
    (AEntity._delete ops e now p).1 = e := by
  cases hs : ops.del e.data p with
  | error msg => rw [delete_eq_of_store_error ops e now p msg hs]
  | ok d => rw [delete_eq_of_store_ok ops e now p d hs] at h; simp at h

theorem transition_ok_meta {σ β : Type} (ops : FieldStoreOps σ) (e : AEntity σ β)
    (now : Nat) (t : EntityState)
    (h : (AEntity._transition_to ops e now t).2 = .ok ()) :
    (AEntity._transition_to ops e now t).1.metadata
      = XEntityMetadata.update_version { e.metadata with state := t } now := by
  unfold AEntity._transition_to at h ⊢
  by_cases h1 : ¬ e._can_transition_to t
  · rw [if_pos h1] at h
    simp at h
  · rw [if_neg h1] at h ⊢
    by_cases h2 : t = .validated ∧ ¬ AEntity._validate ops e
    · rw [if_pos h2] at h
      simp at h
    · rw [if_neg h2]

theorem transition_error_unchanged {σ β : Type} (ops : FieldStoreOps σ) (e : AEntity σ β)
    (now : Nat) (t : EntityState) (err : EntityErr)
    (h : (AEntity._transition_to ops e now t).2 = .error err) :
    (AEntity._transition_to ops e now t).1 = e := by
  unfold AEntity._transition_to at h ⊢
  by_cases h1 : ¬ e._can_transition_to t
  · rw [if_pos h1]
  · rw [if_neg h1] at h ⊢
    by_cases h2 : t = .validated ∧ ¬ AEntity._validate ops e
    · rw [if_pos h2]
    · rw [if_neg h2] at h
      simp at h

/-- C8: `_update` applies each pair via `_set` in iteration order and is
not atomic: either every pair applies and the call succeeds, or there is a
position `k` such that the first `k` pairs were applied and remain
applied, the `(k+1)`-th `_set` failed leaving the entity as after the
first `k` pairs, and no later pair was applied. -/
theorem update_applies_in_order_non_atomically {σ β : Type} (ops : FieldStoreOps σ)
    (e : AEntity σ β) (now : Nat) (pairs : NativeMap) :
    (∃ e', applyOk ops e now pairs = some e' ∧
      AEntity._update ops e now pairs = (e', .ok ())) ∨
    (∃ k eK p v rest err,
      pairs.drop k = (p, v) :: rest ∧
      applyOk ops e now (pairs.take k) = some eK ∧
      AEntity._set ops eK now p v = (eK, .error err) ∧
      AEntity._update ops e now pairs = (eK, .error err)) := by
  induction pairs generalizing e with
  | nil =>
    left
    exact ⟨e, rfl, rfl⟩
  | cons pv rest ih =>
    obtain ⟨p, v⟩ := pv
    cases hs : ops.set e.data p v with
    | error msg =>
      right
      have hset := set_eq_of_store_error ops e now p v msg hs
      refine ⟨0, e, p, v, rest, .storeErr msg, rfl, rfl, hset, ?_⟩
      show AEntity._update ops e now ((p, v) :: rest) = (e, .error (.storeErr msg))
      unfold AEntity._update
      rw [hset]
    | ok d =>
      have hset := set_eq_of_store_ok ops e now p v d hs
      have hupd : AEntity._update ops e now ((p, v) :: rest)
          = AEntity._update ops
              { e with data := d, metadata := e.metadata.update_version now } now rest := by
        conv_lhs => rw [AEntity._update]
        rw [hset]
      have happ : applyOk ops e now ((p, v) :: rest)
          = applyOk ops
              { e with data := d, metadata := e.metadata.update_version now } now rest := by
        conv_lhs => rw [applyOk]
        rw [hset]
      rcases ih { e with data := d, metadata := e.metadata.update_version now } with
        ⟨e', h1, h2⟩ | ⟨k, eK, p2, v2, rest2, err, hd, ht, hsE, hu⟩
      · left
        refine ⟨e', ?_, ?_⟩
        · rw [happ]; exact h1
        · rw [hupd]; exact h2
      · right
        refine ⟨k + 1, eK, p2, v2, rest2, err, hd, ?_, hsE, ?_⟩
        · show applyOk ops e now ((p, v) :: rest.take k) = some eK
          unfold applyOk
          rw [hset]
          exact ht
        · rw [hupd]; exact hu

theorem update_meta_facts {σ β : Type} (ops : FieldStoreOps σ) :
    ∀ (pairs : NativeMap) (e : AEntity σ β) (now : Nat),
    e.metadata.version ≤ (AEntity._update ops e now pairs).1.metadata.version ∧
    (AEntity._update ops e now pairs).1.metadata.created_at = e.metadata.created_at ∧
    ((AEntity._update ops e now pairs).1.metadata.updated_at = e.metadata.updated_at ∨
      (AEntity._update ops e now pairs).1.metadata.updated_at = now) ∧
    ((AEntity._update ops e now pairs).2 = .ok () →
      (AEntity._update ops e now pairs).1.metadata.version
        = e.metadata.version + pairs.length) := by
  intro pairs
  induction pairs with
  | nil =>
    intro e now
    exact ⟨Nat.le_refl _, rfl, Or.inl rfl, fun _ => rfl⟩
  | cons pv rest ih =>
    intro e now
    obtain ⟨p, v⟩ := pv
    cases hs : ops.set e.data p v with
    | error msg =>
      have hupd : AEntity._update ops e now ((p, v) :: rest)
          = (e, .error (.storeErr msg)) := by
        conv_lhs => rw [AEntity._update]
        rw [set_eq_of_store_error ops e now p v msg hs]
      rw [hupd]
      exact ⟨Nat.le_refl _, rfl, Or.inl rfl, fun hok => by simp at hok⟩
    | ok d =>
      have hupd : AEntity._update ops e now ((p, v) :: rest)
          = AEntity._update ops
              { e with data := d, metadata := e.metadata.update_version now } now rest := by
        conv_lhs => rw [AEntity._update]
        rw [set_eq_of_store_ok ops e now p v d hs]
      rw [hupd]
      obtain ⟨hv, hc, hu, hok⟩ :=
        ih { e with data := d, metadata := e.metadata.update_version now } now
      refine ⟨Nat.le_trans (Nat.le_succ _) hv, hc, ?_, ?_⟩
      · rcases hu with h | h
        · right; exact h
        · right; exact h
      · intro h2
        rw [hok h2]
        show e.metadata.version + 1 + rest.length
          = e.metadata.version + (rest.length + 1)
        omega

theorem runTransitions_facts {σ β : Type} (ops : FieldStoreOps σ) :
    ∀ (steps : List (EntityState × Nat)) (e : AEntity σ β),
    (runTransitions ops e steps).2 = true →
    (runTransitions ops e steps).1.metadata.version
      = e.metadata.version + steps.length ∧
    (clockAdmissible e.metadata.updated_at steps →
      e.metadata.updated_at ≤ (runTransitions ops e steps).1.metadata.updated_at) := by
  intro steps
  induction steps with
  | nil =>
    intro e _
    exact ⟨rfl, fun _ => Nat.le_refl _⟩
  | cons tn rest ih =>
    intro e hok
    obtain ⟨t, n⟩ := tn
    cases htr : AEntity._transition_to ops e n t with
    | mk e' r =>
      cases r with
      | error err =>
        have hrun : runTransitions ops e ((t, n) :: rest) = (e', false) := by
          conv_lhs => rw [runTransitions]
          rw [htr]
        rw [hrun] at hok
        simp at hok
      | ok u =>
        have hrun : runTransitions ops e ((t, n) :: rest) = runTransitions ops e' rest := by
          conv_lhs => rw [runTransitions]
          rw [htr]
        have h2 : (AEntity._transition_to ops e n t).2 = .ok () := by rw [htr]
        have hmeta : e'.metadata
            = XEntityMetadata.update_version { e.metadata with state := t } n := by
          have h3 := transition_ok_meta ops e n t h2
          rw [htr] at h3
          exact h3
        rw [hrun] at hok ⊢
        obtain ⟨hv, hu⟩ := ih e' hok
        constructor
        · rw [hv, hmeta]
          show e.metadata.version + 1 + rest.length
            = e.metadata.version + (rest.length + 1)
          omega
        · intro hadm
          obtain ⟨h4, h5⟩ := hadm
          have h6 : clockAdmissible e'.metadata.updated_at rest := by
            rw [hmeta]
            exact h5
          calc e.metadata.updated_at ≤ n := h4
            _ = e'.metadata.updated_at := by rw [hmeta]; rfl
            _ ≤ _ := hu h6

/-- C3: the version and timestamp discipline.  `version` starts at 1 at
construction with `created_at`/`updated_at` set to the observed clock;
every accepted `_set`, `_delete` and `_transition_to` rewrites the
metadata through `update_version` (which adds exactly 1 to the version,
refreshes `updated_at` to the observed clock, and keeps `created_at`),
while a rejected one leaves the entity untouched; `_update` never
decreases the version, keeps `created_at`, leaves `updated_at` at its old
value or at the observed clock, and when accepted bumps the version by
exactly one per pair; and along every fully-accepted transition sequence
the version grows by exactly 1 per transition while `updated_at` is
non-decreasing under a monotone clock.  With clock reads non-decreasing
(`tC ≤ tU ≤ every later now`), `updated_at ≥ created_at` follows
throughout. -/
theorem version_and_timestamp_discipline {σ β : Type} (ops : FieldStoreOps σ) :
    (∀ sch dat ty freshId tC tU,
      (AEntity.init (σ := σ) (β := β) ops sch dat ty freshId tC tU).metadata.version = 1 ∧
      (AEntity.init (σ := σ) (β := β) ops sch dat ty freshId tC tU).metadata.created_at
        = tC ∧
      (AEntity.init (σ := σ) (β := β) ops sch dat ty freshId tC tU).metadata.updated_at
        = tU) ∧
    (∀ (m : XEntityMetadata) (now : Nat),
      (m.update_version now).version = m.version + 1 ∧
      (m.update_version now).updated_at = now ∧
      (m.update_version now).created_at = m.created_at) ∧
    (∀ (e : AEntity σ β) now p v, (AEntity._set ops e now p v).2 = .ok () →
      (AEntity._set ops e now p v).1.metadata = e.metadata.update_version now) ∧
    (∀ (e : AEntity σ β) now p v err, (AEntity._set ops e now p v).2 = .error err →
      (AEntity._set ops e now p v).1 = e) ∧
    (∀ (e : AEntity σ β) now p, (AEntity._delete ops e now p).2 = .ok () →
      (AEntity._delete ops e now p).1.metadata = e.metadata.update_version now) ∧
    (∀ (e : AEntity σ β) now p err, (AEntity._delete ops e now p).2 = .error err →
      (AEntity._delete ops e now p).1 = e) ∧
    (∀ (e : AEntity σ β) now t, (AEntity._transition_to ops e now t).2 = .ok () →
      (AEntity._transition_to ops e now t).1.metadata
        = XEntityMetadata.update_version { e.metadata with state := t } now) ∧
    (∀ (e : AEntity σ β) now t err, (AEntity._transition_to ops e now t).2 = .error err →
      (AEntity._transition_to ops e now t).1 = e) ∧
    (∀ (e : AEntity σ β) now pairs,
      e.metadata.version ≤ (AEntity._update ops e now pairs).1.metadata.version ∧
      (AEntity._update ops e now pairs).1.metadata.created_at = e.metadata.created_at ∧
      ((AEntity._update ops e now pairs).1.metadata.updated_at = e.metadata.updated_at ∨
        (AEntity._update ops e now pairs).1.metadata.updated_at = now) ∧
      ((AEntity._update ops e now pairs).2 = .ok () →
        (AEntity._update ops e now pairs).1.metadata.version
          = e.metadata.version + pairs.length)) ∧
    (∀ (e : AEntity σ β) steps, (runTransitions ops e steps).2 = true →
      (runTransitions ops e steps).1.metadata.version
        = e.metadata.version + steps.length ∧
      (clockAdmissible e.metadata.updated_at steps →
        e.metadata.updated_at ≤ (runTransitions ops e steps).1.metadata.updated_at)) :=
  ⟨fun _ _ _ _ _ _ => ⟨rfl, rfl, rfl⟩,
    fun _ _ => ⟨rfl, rfl, rfl⟩,
    fun e now p v h => set_ok_meta ops e now p v h,
    fun e now p v err h => set_error_unchanged ops e now p v err h,
    fun e now p h => delete_ok_meta ops e now p h,
    fun e now p err h => delete_error_unchanged ops e now p err h,
    fun e now t h => transition_ok_meta ops e now t h,
    fun e now t err h => transition_error_unchanged ops e now t err h,
    fun e now pairs => update_meta_facts ops pairs e now,
    fun e steps h => runTransitions_facts ops steps e h⟩

/-- C3 witness: concrete checks on the sample entity — construction is at
version 1, an accepted `_set` rewrites the metadata through
`update_version`, and the accepted trace DRAFT → VALIDATED → COMMITTED
advances the version by exactly 2. -/
theorem version_and_timestamp_discipline_witness :
    (AEntity.init (σ := NativeMap) (β := Unit) XDataStore none none none 7 0 0).metadata.version
      = 1 ∧
    (AEntity._set XDataStore sampleEntity 3 "a" (.n 1)).1.metadata
      = XEntityMetadata.update_version sampleEntity.metadata 3 ∧
    (runTransitions XDataStore sampleEntity [(.validated, 1), (.committed, 2)]).2 = true ∧
    (runTransitions XDataStore sampleEntity
        [(.validated, 1), (.committed, 2)]).1.metadata.version = 1 + 2 := by
  have hmain := version_and_timestamp_discipline (σ := NativeMap) (β := Unit) XDataStore
  refine ⟨(hmain.1 none none none 7 0 0).1, ?_, rfl, ?_⟩
  · exact hmain.2.2.1 sampleEntity 3 "a" (.n 1) rfl
  · exact (hmain.2.2.2.2.2.2.2.2.2 sampleEntity [(.validated, 1), (.committed, 2)] rfl).1

end XWEntity
